import Mathlib

/-!
Shallow embedding of the activelook-rs protocol stack (src/protocol.rs,
src/commands.rs) and proofs about its framer, codec helpers, chunker and
client correlation logic.

Modelling conventions:
* a Rust `u8` byte is a `Nat` in 0..255; byte buffers are `List Nat`;
* `i16` / `u32` arithmetic is carried out on `Int` / `Nat` with explicit
  wrapping (`% 2 ^ w`) where the source wraps;
* fallible Rust code returns `PResult` / `Option`; a Rust panic
  (`unwrap` / `expect` / out-of-bounds slice / division by zero) is the
  explicit `PResult.panicked` outcome; a loop of the source that never
  terminates is the explicit `RunResult.diverged` outcome, justified by a
  fuel-indexed model of the loop.
-/

namespace ActiveLook

/-- Bytes on the wire: each entry models one `u8` (value in 0..255). -/
abbrev Bytes := List Nat

/-- Minimum valid packet size (`PACKET_MIN_SIZE` in src/protocol.rs). -/
def PACKET_MIN_SIZE : Nat := 5

/-- Start delimiter (`PACKET_START`). -/
def PACKET_START : Nat := 0xFF

/-- End delimiter (`PACKET_END`). -/
def PACKET_END : Nat := 0xAA

/-- Errors of `enum ProtocolError` in src/protocol.rs (the `ParseError`
variant carries a `DekuError` in the source; the payload is irrelevant to
the claims and omitted here). -/
inductive ProtocolError where
  | PacketLengthTooSmall
  | FrameError
  | InvalidPacketLength
  | ParseError
  | EmbeddedIOError
  | IncorrectQueryId
  | Empty
deriving DecidableEq, Repr

/-- Result of running a fallible piece of the source: `ok` a value, `err` a
returned `ProtocolError`, or `panicked` when the source panics
(`unwrap` / `expect` / slice out of bounds / arithmetic overflow). -/
inductive PResult (α : Type) where
  | ok (a : α)
  | err (e : ProtocolError)
  | panicked
deriving DecidableEq, Repr

/-- Result of running a piece of the source whose only failure modes are a
panic or an infinite loop. -/
inductive RunResult (α : Type) where
  | ok (a : α)
  | panicked
  | diverged
deriving DecidableEq, Repr

/-- Big-endian interpretation of a byte list (`u32::from_be_bytes` on a
4-byte list, `u16::from_be_bytes` on a 2-byte list). -/
def beToNat (l : Bytes) : Nat := l.foldl (fun acc b => acc * 256 + b) 0

/-- The 4 big-endian bytes of a `u32` (`u32::to_be_bytes`). -/
def u32be (n : Nat) : Bytes :=
  [n / 2 ^ 24 % 256, n / 2 ^ 16 % 256, n / 2 ^ 8 % 256, n % 256]

/-- The 4 big-endian bytes of a `u32` field (deku `endian = big` writer). -/
def u32beBytes (n : Nat) : Bytes := u32be n

/-- The 2 big-endian bytes of a `u16` field (deku `endian = big` writer). -/
def u16beBytes (n : Nat) : Bytes := [n / 256 % 256, n % 256]

/-- The 2 big-endian two's-complement bytes of an `i16` field. -/
def i16beBytes (z : Int) : Bytes :=
  let u := (z % 65536).toNat
  [u / 256, u % 256]

/-- Truncating cast `usize as i16` (Rust `as` casts take the low 16 bits,
interpreted as two's complement). -/
def i16ofNat (n : Nat) : Int :=
  let m := n % 65536
  if m < 32768 then (m : Int) else (m : Int) - 65536

/-- Wrap an integer into `i16` range (release-mode wrapping of `i16`
addition; the claims below stay far away from the wrapping region). -/
def wrap16 (z : Int) : Int :=
  let m := z % 65536
  if m < 32768 then m else m - 65536

/-- A decoded raw packet: `RawPacket` in src/protocol.rs.  `long` and
`query_id_size` are the two meaningful `CmdFormat` fields (the 3 reserved
bits are read and ignored by the source). -/
structure RawPacketM where
  cmd_id : Nat
  long : Nat
  query_id_size : Nat
  length : Nat
  query_id : Option Bytes
  data : Option Bytes
deriving DecidableEq, Repr

/-- Model of `RawPacket::from_bytes` (src/protocol.rs lines 107-172).

Panics of the source are made explicit:
* when the format byte has the extended-length bit set, the source runs
  `i16::from_be_bytes(bytes[index..index + 1].try_into().unwrap())` on a
  one-byte slice, and the `try_into` to `[u8; 2]` always fails, so the
  `unwrap` always panics;
* `&bytes[index..index + len]` for the query id panics when
  `4 + query_id_size > bytes.len()`;
* the `data_len` usize subtraction underflows (panics) when
  `length < 5 + query_id_size` (with `long = 0`).

When `data_len` is computed without underflow, the final data slice
`bytes[index..index + data_len]` ends at `length - 1` and is in bounds. -/
def RawPacketM.from_bytes (bytes : Bytes) : PResult RawPacketM :=
  if bytes.length < PACKET_MIN_SIZE then .err .PacketLengthTooSmall
  else if ¬ (bytes.head? = some PACKET_START ∧ bytes.getLast? = some PACKET_END) then
    .err .FrameError
  else
    let cmd_id := bytes.getD 1 0
    -- CmdFormat: Msb0 bit layout is 3 reserved bits, the long bit, then
    -- 4 bits of query id size.
    let fmt := bytes.getD 2 0
    let long := fmt / 16 % 2
    let query_id_size := fmt % 16
    if long = 1 then .panicked
    else
      let length := bytes.getD 3 0
      if bytes.length ≠ length then .err .InvalidPacketLength
      else if query_id_size ≠ 0 ∧ bytes.length < 4 + query_id_size then .panicked
      else if length < 5 + query_id_size then .panicked
      else
        let data_len := length - 5 - query_id_size
        .ok { cmd_id := cmd_id, long := long, query_id_size := query_id_size,
              length := length,
              query_id := if query_id_size = 0 then none
                          else some ((bytes.drop 4).take query_id_size),
              data := if data_len = 0 then none
                      else some ((bytes.drop (4 + query_id_size)).take data_len) }

/-- An outbound packet under construction: `Packet<T>` in src/protocol.rs,
with the payload already serialized (`T::data_bytes`) and the tag already
extracted (`T::id`), exactly the two trait calls `Packet::new` makes. -/
structure PacketM where
  cmd_id : Nat
  long : Nat
  query_id_size : Nat
  length : Int
  query_id : Option Bytes
  data : Bytes
deriving DecidableEq, Repr

/-- Model of `Packet::new` (src/protocol.rs lines 218-232): length starts
at `data.len() as i16 + 5`; if that exceeds 255 the long bit is set and the
length grows by one for the second length byte. -/
def PacketM.new (id : Nat) (data : Bytes) : PacketM :=
  let l0 : Int := wrap16 (i16ofNat data.length + 5)
  if l0 > 255 then
    { cmd_id := id, long := 1, query_id_size := 0, length := wrap16 (l0 + 1),
      query_id := none, data := data }
  else
    { cmd_id := id, long := 0, query_id_size := 0, length := l0,
      query_id := none, data := data }

/-- Model of `Packet::new_with_query_id` (src/protocol.rs lines 235-241):
builds a plain packet first, then installs the query id and adds its length
to `length` — without revisiting the `long` bit. -/
def PacketM.new_with_query_id (id : Nat) (data qid : Bytes) : PacketM :=
  let p := PacketM.new id data
  { p with query_id := some qid, query_id_size := qid.length,
           length := wrap16 (p.length + qid.length) }

/-- Model of `Packet::to_bytes` (src/protocol.rs lines 243-262).  The
format byte is 3 zero reserved bits, the long bit and 4 bits of query id
size (the claims keep `query_id_size ≤ 15` so the 4-bit field holds it).
The length is emitted on two big-endian bytes iff the final `length`
exceeds 255, else truncated to one byte (`as u8`). -/
def PacketM.to_bytes (p : PacketM) : Bytes :=
  [PACKET_START, p.cmd_id, p.long * 16 + p.query_id_size]
    ++ (if p.length > 255 then i16beBytes p.length else [(p.length % 256).toNat])
    ++ p.query_id.getD []
    ++ p.data
    ++ [PACKET_END]

-- ---------------------------------------------------------------------------
-- Fixed-capacity C strings (src/commands.rs lines 384-414)
-- ---------------------------------------------------------------------------

/-- Model of `read_fixed_size_cstr`: read at most `len` bytes, stopping at
the first NUL; reading past the end of the input is a `DekuError`,
modelled as `none`.  Returns the collected bytes and the rest of the
input. -/
def read_fixed_size_cstr : Nat → Bytes → Option (Bytes × Bytes)
  | 0, input => some ([], input)
  | _ + 1, [] => none
  | n + 1, b :: rest =>
    if b = 0 then some ([], rest)
    else (read_fixed_size_cstr n rest).map (fun sr => (b :: sr.1, sr.2))

/-- Model of `write_fixed_size_cstr`: truncate the text to `len` bytes,
write it, and append a single NUL byte only when the truncated text is
shorter than `len` (no zero-fill of the remaining capacity). -/
def write_fixed_size_cstr (string : Bytes) (len : Nat) : Bytes :=
  let s := string.take len
  s ++ (if s.length < len then [0] else [])

-- ---------------------------------------------------------------------------
-- Chunk loop (src/commands.rs lines 931-942)
-- ---------------------------------------------------------------------------

/-- Fuel-indexed model of the `while index < len` loop of
`as_bytes_chunks`: each iteration pushes `data[index..min(len, index + chunk)]`
and advances `index` to that end.  With `chunk = 0` the loop pushes an
empty slice without advancing, so no amount of fuel finishes it; `none`
models that non-termination. -/
def chunkLoopFuel (chunk : Nat) : Nat → Bytes → Option (List Bytes)
  | _, [] => some []
  | 0, _ :: _ => none
  | fuel + 1, b :: rest =>
    ((chunkLoopFuel chunk fuel ((b :: rest).drop chunk)).map
      (fun cs => (b :: rest).take chunk :: cs))

/-- The chunk loop run with enough fuel (`data.length` steps suffice
whenever `chunk ≥ 1`, and no fuel suffices when `chunk = 0` on nonempty
data — see `chunkLoopFuel_zero` and `chunkLoopFuel_enough`). -/
def chunkLoop (chunk : Nat) (data : Bytes) : Option (List Bytes) :=
  chunkLoopFuel chunk data.length data

-- ---------------------------------------------------------------------------
-- Command data model (src/commands.rs)
-- ---------------------------------------------------------------------------

/-- Demo values (`enum DemoID`). -/
inductive DemoID where
  | Fill | Rect | Images
deriving DecidableEq, Repr

/-- The deku discriminant of a `DemoID`. -/
def DemoID.toNat : DemoID → Nat
  | .Fill => 0
  | .Rect => 1
  | .Images => 2

/-- LED states (`enum LedState`). -/
inductive LedState where
  | Off | On | Toggle | Blinking
deriving DecidableEq, Repr

/-- The deku discriminant of a `LedState`. -/
def LedState.toNat : LedState → Nat
  | .Off => 0
  | .On => 1
  | .Toggle => 2
  | .Blinking => 3

/-- Device information selectors (`enum DeviceInfo`). -/
inductive DeviceInfo where
  | HWPlatform | Manufacturer | AdvertisingManufacturerID | Model | SubModel
  | FWVersion | SerialNumber | BatteryModel | LensModel | DisplayModel
  | DisplayOrientation | Certification1 | Certification2 | Certification3
  | Certification4 | Certification5 | Certification6
deriving DecidableEq, Repr

/-- The deku discriminant of a `DeviceInfo` (ids 0..16 in declaration order). -/
def DeviceInfo.toNat : DeviceInfo → Nat
  | .HWPlatform => 0
  | .Manufacturer => 1
  | .AdvertisingManufacturerID => 2
  | .Model => 3
  | .SubModel => 4
  | .FWVersion => 5
  | .SerialNumber => 6
  | .BatteryModel => 7
  | .LensModel => 8
  | .DisplayModel => 9
  | .DisplayOrientation => 10
  | .Certification1 => 11
  | .Certification2 => 12
  | .Certification3 => 13
  | .Certification4 => 14
  | .Certification5 => 15
  | .Certification6 => 16

/-- Hold/flush actions (`enum HoldFlushAction`). -/
inductive HoldFlushAction where
  | Hold | Flush | ResetFlush
deriving DecidableEq, Repr

/-- The deku discriminant of a `HoldFlushAction`. -/
def HoldFlushAction.toNat : HoldFlushAction → Nat
  | .Hold => 0
  | .Flush => 1
  | .ResetFlush => 255

/-- Image pixel formats (`enum ImgFormat`). -/
inductive ImgFormat where
  | Img4bpp | Img1bpp | Img4bppDecompressBeforeSaving
  | Img4bppDecompressBeforeDisplaying | Img8bpp
deriving DecidableEq, Repr

/-- The deku discriminant of an `ImgFormat` (ids 0, 1, 2, 3, 8). -/
def ImgFormat.toNat : ImgFormat → Nat
  | .Img4bpp => 0
  | .Img1bpp => 1
  | .Img4bppDecompressBeforeSaving => 2
  | .Img4bppDecompressBeforeDisplaying => 3
  | .Img8bpp => 8

/-- Bytes per pixel row (`ImgFormat::nb_of_bytes`, src/commands.rs lines
307-321): one pixel per byte for 8bpp, two pixels per byte for 4bpp,
eight pixels per byte for 1bpp, `width` for the compressed formats. -/
def ImgFormat.nb_of_bytes (f : ImgFormat) (width : Nat) : Nat :=
  match f with
  | .Img8bpp => width
  | .Img4bpp => (width + 1) / 2
  | .Img1bpp => (width + 7) / 8
  | .Img4bppDecompressBeforeSaving => width
  | .Img4bppDecompressBeforeDisplaying => width

/-- Streamable image formats (`enum StreamImgFormat`, ids 1 and 2). -/
inductive StreamImgFormat where
  | Img1bpp | Img4bppDecompressBeforeSaving
deriving DecidableEq, Repr

/-- The deku discriminant of a `StreamImgFormat`. -/
def StreamImgFormat.toNat : StreamImgFormat → Nat
  | .Img1bpp => 1
  | .Img4bppDecompressBeforeSaving => 2

/-- Bytes per pixel row (`StreamImgFormat::nb_of_bytes`). -/
def StreamImgFormat.nb_of_bytes (f : StreamImgFormat) (width : Nat) : Nat :=
  match f with
  | .Img1bpp => (width + 7) / 8
  | .Img4bppDecompressBeforeSaving => width

/-- A signed 16-bit coordinate pair (`struct Point`, big-endian fields). -/
structure Point where
  x : Int
  y : Int
deriving DecidableEq, Repr

/-- A signed 16-bit shift pair (`struct Shift`, big-endian fields). -/
structure Shift where
  x : Int
  y : Int
deriving DecidableEq, Repr

/-- A layout position (`struct LayoutPosition`: `x: u16` big-endian,
`y: u8`). -/
structure LayoutPosition where
  x : Nat
  y : Nat
deriving DecidableEq, Repr

/-- Layout parameters (`struct LayoutParameters`). -/
structure LayoutParameters where
  size : Nat
  pos : LayoutPosition
  width : Nat
  height : Nat
  fore_color : Nat
  back_color : Nat
  font : Nat
  text_valid : Nat
  text_pos : LayoutPosition
  text_rotation : Nat
  text_opacity : Nat
  commands : Bytes
deriving DecidableEq, Repr

/-- `NAME_LEN` (capacity of name text fields). -/
def NAME_LEN : Nat := 12

/-- `TEXT_LEN` (capacity of free text fields). -/
def TEXT_LEN : Nat := 255

/-- The command catalog (`enum Command`, src/commands.rs lines 423-863).
Field types follow the source; text fields are modelled as their byte
sequences.  The source field names `from`, `to` and `end` are Lean
keywords and appear here as `f`, `t` and `endv`. -/
inductive Command where
  | PowerDisplay (en : Nat)
  | Clear
  | Grey (lvl : Nat)
  | Demo (demo_id : DemoID)
  | Battery
  | Version
  | Led (state : LedState)
  | Shift (shift : ActiveLook.Shift)
  | Settings
  | Luma (level : Nat)
  | Sensor (en : Bool)
  | Gesture (en : Bool)
  | Als (en : Bool)
  | Color (color : Nat)
  | Point (coord : ActiveLook.Point)
  | Line (f t : ActiveLook.Point)
  | Rect (f t : ActiveLook.Point)
  | RectFull (f t : ActiveLook.Point)
  | Circ (center : ActiveLook.Point) (r : Nat)
  | CircFull (center : ActiveLook.Point) (r : Nat)
  | Txt (pos : ActiveLook.Point) (rotation font_size color : Nat) (string : Bytes)
  | Polyline (thickness : Nat) (reserved : Nat) (points : List ActiveLook.Point)
  | HoldFlush (action : HoldFlushAction)
  | Arc (center : ActiveLook.Point) (r : Nat) (angle_start angle_end : Int)
      (thickness : Nat)
  | ImgSave (id : Nat) (size : Nat) (width : Nat) (format : ImgFormat) (data : Bytes)
  | ImgDisplay (id : Nat) (coord : ActiveLook.Point)
  | ImgStream (size : Nat) (width : Nat) (coord : ActiveLook.Point)
      (format : StreamImgFormat) (data : Bytes)
  | ImgDelete (id : Nat)
  | ImgList
  | FontList
  | FontSelect (id : Nat)
  | FontDelete (id : Nat)
  | LayoutSave (id : Nat) (params : LayoutParameters)
  | LayoutDelete (id : Nat)
  | LayoutDisplay (id : Nat) (text : Bytes)
  | LayoutClear (id : Nat)
  | LayoutList
  | LayoutPosition (id : Nat) (pos : ActiveLook.LayoutPosition)
  | LayoutDisplayExtended (id : Nat) (pos : ActiveLook.LayoutPosition)
      (text : Bytes) (extra_cmd : Bytes)
  | LayoutGet (id : Nat)
  | LayoutClearExtended (id : Nat) (pos : ActiveLook.LayoutPosition)
  | LayoutClearAndDisplay (id : Nat) (text : Bytes)
  | LayoutClearAndDisplayExtended (id : Nat) (pos : ActiveLook.LayoutPosition)
      (text : Bytes) (extra_cmd : Bytes)
  | GaugeDisplay (id : Nat) (value : Nat)
  | GaugeSave (id : Nat) (pos : ActiveLook.Point) (radius : Nat) (inner : Nat)
      (start : Nat) (endv : Nat) (clockwise : Nat)
  | GaugeDelete (id : Nat)
  | GaugeList
  | GaugeGet (id : Nat)
  | PageSave
  | PageGet (id : Nat)
  | PageDelete (id : Nat)
  | PageDisplay (id : Nat)
  | PageClear (id : Nat)
  | PageList
  | PageClearAndDisplay (id : Nat)
  | AnimSave (id : Nat) (total_size : Nat) (img_size : Nat) (width : Nat)
      (fmt : Nat) (img_compressed_size : Nat)
  | AnimDelete (id : Nat)
  | AnimDisplay (handler_id : Nat) (id : Nat) (delay : Nat) (repeats : Nat)
      (pos : ActiveLook.Point)
  | AnimClear (handler_id : Nat)
  | AnimList
  | PixelCount
  | CfgWrite (name : Bytes) (version : Nat) (password : Nat)
  | CfgRead (name : Bytes)
  | CfgSet (name : Bytes)
  | CfgList
  | CfgRename (old : Bytes) (new : Bytes) (password : Nat)
  | CfgDelete (name : Bytes)
  | CfgDeleteLessUsed
  | CfgFreeSpace
  | CfgGetNb
  | Shutdown (key : Bytes)
  | Reset (key : Bytes)
  | Info (id : DeviceInfo)

/-- The deku discriminant of a `Command` (`Command::id`, via `deku_id`). -/
def Command.id : Command → Nat
  | .PowerDisplay _ => 0x00
  | .Clear => 0x01
  | .Grey _ => 0x02
  | .Demo _ => 0x03
  | .Battery => 0x05
  | .Version => 0x06
  | .Led _ => 0x08
  | .Shift _ => 0x09
  | .Settings => 0x0A
  | .Luma _ => 0x10
  | .Sensor _ => 0x20
  | .Gesture _ => 0x21
  | .Als _ => 0x22
  | .Color _ => 0x30
  | .Point _ => 0x31
  | .Line _ _ => 0x32
  | .Rect _ _ => 0x33
  | .RectFull _ _ => 0x34
  | .Circ _ _ => 0x35
  | .CircFull _ _ => 0x36
  | .Txt _ _ _ _ _ => 0x37
  | .Polyline _ _ _ => 0x38
  | .HoldFlush _ => 0x39
  | .Arc _ _ _ _ _ => 0x3C
  | .ImgSave _ _ _ _ _ => 0x41
  | .ImgDisplay _ _ => 0x42
  | .ImgStream _ _ _ _ _ => 0x44
  | .ImgDelete _ => 0x46
  | .ImgList => 0x47
  | .FontList => 0x50
  | .FontSelect _ => 0x52
  | .FontDelete _ => 0x53
  | .LayoutSave _ _ => 0x60
  | .LayoutDelete _ => 0x61
  | .LayoutDisplay _ _ => 0x62
  | .LayoutClear _ => 0x63
  | .LayoutList => 0x64
  | .LayoutPosition _ _ => 0x65
  | .LayoutDisplayExtended _ _ _ _ => 0x66
  | .LayoutGet _ => 0x67
  | .LayoutClearExtended _ _ => 0x68
  | .LayoutClearAndDisplay _ _ => 0x69
  | .LayoutClearAndDisplayExtended _ _ _ _ => 0x6A
  | .GaugeDisplay _ _ => 0x70
  | .GaugeSave _ _ _ _ _ _ _ => 0x71
  | .GaugeDelete _ => 0x72
  | .GaugeList => 0x73
  | .GaugeGet _ => 0x74
  | .PageSave => 0x80
  | .PageGet _ => 0x81
  | .PageDelete _ => 0x82
  | .PageDisplay _ => 0x83
  | .PageClear _ => 0x84
  | .PageList => 0x85
  | .PageClearAndDisplay _ => 0x86
  | .AnimSave _ _ _ _ _ _ => 0x95
  | .AnimDelete _ => 0x96
  | .AnimDisplay _ _ _ _ _ => 0x97
  | .AnimClear _ => 0x98
  | .AnimList => 0x99
  | .PixelCount => 0xA5
  | .CfgWrite _ _ _ => 0xD0
  | .CfgRead _ => 0xD1
  | .CfgSet _ => 0xD2
  | .CfgList => 0xD3
  | .CfgRename _ _ _ => 0xD4
  | .CfgDelete _ => 0xD5
  | .CfgDeleteLessUsed => 0xD6
  | .CfgFreeSpace => 0xD7
  | .CfgGetNb => 0xD8
  | .Shutdown _ => 0xE0
  | .Reset _ => 0xE1
  | .Info _ => 0xE3

/-- The 2 little-endian bytes of a `u16` field without a deku endian
attribute (deku defaults to the machine endianness; the one such field is
`Polyline::_reserved`). -/
def u16leBytes (n : Nat) : Bytes := [n % 256, n / 256 % 256]

/-- Serialized bytes of a `Point` field (two big-endian `i16`). -/
def Point.bytes (p : Point) : Bytes := i16beBytes p.x ++ i16beBytes p.y

/-- Serialized bytes of a `Shift` field (two big-endian `i16`). -/
def Shift.bytes (s : Shift) : Bytes := i16beBytes s.x ++ i16beBytes s.y

/-- Serialized bytes of a `LayoutPosition` field (`u16` big-endian, `u8`). -/
def LayoutPosition.bytes (p : LayoutPosition) : Bytes := u16beBytes p.x ++ [p.y]

/-- Serialized bytes of a `LayoutParameters` field (fields in declaration
order; the `commands` vector is written whole — the `count` attribute only
drives reading). -/
def LayoutParameters.bytes (lp : LayoutParameters) : Bytes :=
  [lp.size] ++ lp.pos.bytes ++ u16beBytes lp.width
    ++ [lp.height, lp.fore_color, lp.back_color, lp.font, lp.text_valid]
    ++ lp.text_pos.bytes ++ [lp.text_rotation, lp.text_opacity] ++ lp.commands

/-- Serialized byte of a deku `bool` field. -/
def boolByte (b : Bool) : Nat := if b then 1 else 0

/-- Model of `Command::data_bytes` (src/commands.rs lines 874-878): the
deku serialization of the fields in declaration order, with the leading
discriminant byte removed.  Multi-byte integers are big-endian where the
source declares them so; text fields go through the fixed-size C-string
writer; `count`-guarded vectors are written whole. -/
def Command.data_bytes : Command → Bytes
  | .PowerDisplay en => [en]
  | .Clear => []
  | .Grey lvl => [lvl]
  | .Demo demo_id => [demo_id.toNat]
  | .Battery => []
  | .Version => []
  | .Led state => [state.toNat]
  | .Shift shift => shift.bytes
  | .Settings => []
  | .Luma level => [level]
  | .Sensor en => [boolByte en]
  | .Gesture en => [boolByte en]
  | .Als en => [boolByte en]
  | .Color color => [color]
  | .Point coord => coord.bytes
  | .Line f t => f.bytes ++ t.bytes
  | .Rect f t => f.bytes ++ t.bytes
  | .RectFull f t => f.bytes ++ t.bytes
  | .Circ center r => center.bytes ++ [r]
  | .CircFull center r => center.bytes ++ [r]
  | .Txt pos rotation font_size color string =>
    pos.bytes ++ [rotation, font_size, color] ++ write_fixed_size_cstr string TEXT_LEN
  | .Polyline thickness reserved points =>
    [thickness] ++ u16leBytes reserved ++ (points.map Point.bytes).flatten
  | .HoldFlush action => [action.toNat]
  | .Arc center r angle_start angle_end thickness =>
    center.bytes ++ [r] ++ i16beBytes angle_start ++ i16beBytes angle_end ++ [thickness]
  | .ImgSave id size width format data =>
    [id] ++ u32beBytes size ++ u16beBytes width ++ [format.toNat] ++ data
  | .ImgDisplay id coord => [id] ++ coord.bytes
  | .ImgStream size width coord format data =>
    u32beBytes size ++ u16beBytes width ++ coord.bytes ++ [format.toNat] ++ data
  | .ImgDelete id => [id]
  | .ImgList => []
  | .FontList => []
  | .FontSelect id => [id]
  | .FontDelete id => [id]
  | .LayoutSave id params => [id] ++ params.bytes
  | .LayoutDelete id => [id]
  | .LayoutDisplay id text => [id] ++ write_fixed_size_cstr text TEXT_LEN
  | .LayoutClear id => [id]
  | .LayoutList => []
  | .LayoutPosition id pos => [id] ++ pos.bytes
  | .LayoutDisplayExtended id pos text extra_cmd =>
    [id] ++ pos.bytes ++ write_fixed_size_cstr text TEXT_LEN ++ extra_cmd
  | .LayoutGet id => [id]
  | .LayoutClearExtended id pos => [id] ++ pos.bytes
  | .LayoutClearAndDisplay id text => [id] ++ write_fixed_size_cstr text TEXT_LEN
  | .LayoutClearAndDisplayExtended id pos text extra_cmd =>
    [id] ++ pos.bytes ++ write_fixed_size_cstr text TEXT_LEN ++ extra_cmd
  | .GaugeDisplay id value => [id, value]
  | .GaugeSave id pos radius inner start endv clockwise =>
    [id] ++ pos.bytes ++ u16beBytes radius ++ u16beBytes inner ++ [start, endv, clockwise]
  | .GaugeDelete id => [id]
  | .GaugeList => []
  | .GaugeGet id => [id]
  | .PageSave => []
  | .PageGet id => [id]
  | .PageDelete id => [id]
  | .PageDisplay id => [id]
  | .PageClear id => [id]
  | .PageList => []
  | .PageClearAndDisplay id => [id]
  | .AnimSave id total_size img_size width fmt img_compressed_size =>
    [id] ++ u32beBytes total_size ++ u32beBytes img_size ++ u16beBytes width
      ++ [fmt] ++ u32beBytes img_compressed_size
  | .AnimDelete id => [id]
  | .AnimDisplay handler_id id delay repeats pos =>
    [handler_id, id] ++ u16beBytes delay ++ [repeats] ++ pos.bytes
  | .AnimClear handler_id => [handler_id]
  | .AnimList => []
  | .PixelCount => []
  | .CfgWrite name version password =>
    write_fixed_size_cstr name NAME_LEN ++ u32beBytes version ++ u32beBytes password
  | .CfgRead name => write_fixed_size_cstr name NAME_LEN
  | .CfgSet name => write_fixed_size_cstr name NAME_LEN
  | .CfgList => []
  | .CfgRename old new password =>
    write_fixed_size_cstr old NAME_LEN ++ write_fixed_size_cstr new NAME_LEN
      ++ u32beBytes password
  | .CfgDelete name => write_fixed_size_cstr name NAME_LEN
  | .CfgDeleteLessUsed => []
  | .CfgFreeSpace => []
  | .CfgGetNb => []
  | .Shutdown key => key
  | .Reset key => key
  | .Info id => [id.toNat]

-- ---------------------------------------------------------------------------
-- Deku readers (decoding side of the codec)
-- ---------------------------------------------------------------------------

/-- Read one byte; reading past the end of the input is a `DekuError`,
modelled as `none`. -/
def readU8 : Bytes → Option (Nat × Bytes)
  | [] => none
  | b :: rest => some (b, rest)

/-- Read a deku `bool` (one byte; only 0 and 1 parse). -/
def readBool (bs : Bytes) : Option (Bool × Bytes) := do
  let (v, bs) ← readU8 bs
  match v with
  | 0 => some (false, bs)
  | 1 => some (true, bs)
  | _ => none

/-- Read a big-endian `u16`. -/
def readU16be (bs : Bytes) : Option (Nat × Bytes) := do
  let (a, bs) ← readU8 bs
  let (b, bs) ← readU8 bs
  some (a * 256 + b, bs)

/-- Read a machine-endian (little on the reference targets) `u16`. -/
def readU16le (bs : Bytes) : Option (Nat × Bytes) := do
  let (a, bs) ← readU8 bs
  let (b, bs) ← readU8 bs
  some (b * 256 + a, bs)

/-- Read a big-endian two's-complement `i16`. -/
def readI16be (bs : Bytes) : Option (Int × Bytes) := do
  let (u, bs) ← readU16be bs
  some (if u < 32768 then (u : Int) else (u : Int) - 65536, bs)

/-- Read a big-endian `u32`. -/
def readU32be (bs : Bytes) : Option (Nat × Bytes) := do
  let (a, bs) ← readU16be bs
  let (b, bs) ← readU16be bs
  some (a * 65536 + b, bs)

/-- Read exactly `n` raw bytes (a `count`-guarded vector or a fixed array). -/
def readN (n : Nat) (bs : Bytes) : Option (Bytes × Bytes) :=
  if n ≤ bs.length then some (bs.take n, bs.drop n) else none

/-- Read a `Point` field. -/
def readPoint (bs : Bytes) : Option (Point × Bytes) := do
  let (x, bs) ← readI16be bs
  let (y, bs) ← readI16be bs
  some (⟨x, y⟩, bs)

/-- Read a `Shift` field. -/
def readShift (bs : Bytes) : Option (Shift × Bytes) := do
  let (x, bs) ← readI16be bs
  let (y, bs) ← readI16be bs
  some (⟨x, y⟩, bs)

/-- Read a `LayoutPosition` field. -/
def readLayoutPosition (bs : Bytes) : Option (LayoutPosition × Bytes) := do
  let (x, bs) ← readU16be bs
  let (y, bs) ← readU8 bs
  some (⟨x, y⟩, bs)

/-- Read a `LayoutParameters` field. -/
def readLayoutParameters (bs : Bytes) : Option (LayoutParameters × Bytes) := do
  let (size, bs) ← readU8 bs
  let (pos, bs) ← readLayoutPosition bs
  let (width, bs) ← readU16be bs
  let (height, bs) ← readU8 bs
  let (fore_color, bs) ← readU8 bs
  let (back_color, bs) ← readU8 bs
  let (font, bs) ← readU8 bs
  let (text_valid, bs) ← readU8 bs
  let (text_pos, bs) ← readLayoutPosition bs
  let (text_rotation, bs) ← readU8 bs
  let (text_opacity, bs) ← readU8 bs
  let (commands, bs) ← readN size bs
  some (⟨size, pos, width, height, fore_color, back_color, font, text_valid,
         text_pos, text_rotation, text_opacity, commands⟩, bs)

/-- Read a `DemoID` field. -/
def readDemoID (bs : Bytes) : Option (DemoID × Bytes) := do
  let (v, bs) ← readU8 bs
  match v with
  | 0 => some (.Fill, bs)
  | 1 => some (.Rect, bs)
  | 2 => some (.Images, bs)
  | _ => none

/-- Read a `LedState` field. -/
def readLedState (bs : Bytes) : Option (LedState × Bytes) := do
  let (v, bs) ← readU8 bs
  match v with
  | 0 => some (.Off, bs)
  | 1 => some (.On, bs)
  | 2 => some (.Toggle, bs)
  | 3 => some (.Blinking, bs)
  | _ => none

/-- Read a `DeviceInfo` field. -/
def readDeviceInfo (bs : Bytes) : Option (DeviceInfo × Bytes) := do
  let (v, bs) ← readU8 bs
  match v with
  | 0 => some (.HWPlatform, bs)
  | 1 => some (.Manufacturer, bs)
  | 2 => some (.AdvertisingManufacturerID, bs)
  | 3 => some (.Model, bs)
  | 4 => some (.SubModel, bs)
  | 5 => some (.FWVersion, bs)
  | 6 => some (.SerialNumber, bs)
  | 7 => some (.BatteryModel, bs)
  | 8 => some (.LensModel, bs)
  | 9 => some (.DisplayModel, bs)
  | 10 => some (.DisplayOrientation, bs)
  | 11 => some (.Certification1, bs)
  | 12 => some (.Certification2, bs)
  | 13 => some (.Certification3, bs)
  | 14 => some (.Certification4, bs)
  | 15 => some (.Certification5, bs)
  | 16 => some (.Certification6, bs)
  | _ => none

/-- Read a `HoldFlushAction` field. -/
def readHoldFlushAction (bs : Bytes) : Option (HoldFlushAction × Bytes) := do
  let (v, bs) ← readU8 bs
  match v with
  | 0 => some (.Hold, bs)
  | 1 => some (.Flush, bs)
  | 255 => some (.ResetFlush, bs)
  | _ => none

/-- Read an `ImgFormat` field. -/
def readImgFormat (bs : Bytes) : Option (ImgFormat × Bytes) := do
  let (v, bs) ← readU8 bs
  match v with
  | 0 => some (.Img4bpp, bs)
  | 1 => some (.Img1bpp, bs)
  | 2 => some (.Img4bppDecompressBeforeSaving, bs)
  | 3 => some (.Img4bppDecompressBeforeDisplaying, bs)
  | 8 => some (.Img8bpp, bs)
  | _ => none

/-- Read a `StreamImgFormat` field. -/
def readStreamImgFormat (bs : Bytes) : Option (StreamImgFormat × Bytes) := do
  let (v, bs) ← readU8 bs
  match v with
  | 1 => some (.Img1bpp, bs)
  | 2 => some (.Img4bppDecompressBeforeSaving, bs)
  | _ => none

/-- Read `read_all` points until the input is exhausted (fuel-indexed; a
trailing fragment shorter than one point is a `DekuError`).  Each
successful step consumes four bytes, so `bs.length` fuel always
suffices. -/
def readPointsAux : Nat → Bytes → Option (List Point)
  | _, [] => some []
  | 0, _ :: _ => none
  | fuel + 1, b :: rest => do
    let (p, bs) ← readPoint (b :: rest)
    let ps ← readPointsAux fuel bs
    some (p :: ps)

/-- Read a trailing `read_all` vector of points. -/
def readPointsAll (bs : Bytes) : Option (List Point × Bytes) :=
  (readPointsAux bs.length bs).map (fun ps => (ps, []))

/-- Model of `Command::from_data` (src/commands.rs lines 951-958): prepend
the id byte and run the deku enum reader.  An id absent from the catalog
or a payload shorter than the variant needs is a `DekuError` (`none`);
deku does not require the payload to be fully consumed, leftover bytes
are ignored. -/
def Command.from_data (id : Nat) (data : Option Bytes) : Option Command :=
  let bs := data.getD []
  match id with
  | 0x00 => (readU8 bs).map (fun r => Command.PowerDisplay r.1)
  | 0x01 => some .Clear
  | 0x02 => (readU8 bs).map (fun r => Command.Grey r.1)
  | 0x03 => (readDemoID bs).map (fun r => Command.Demo r.1)
  | 0x05 => some .Battery
  | 0x06 => some .Version
  | 0x08 => (readLedState bs).map (fun r => Command.Led r.1)
  | 0x09 => (readShift bs).map (fun r => Command.Shift r.1)
  | 0x0A => some .Settings
  | 0x10 => (readU8 bs).map (fun r => Command.Luma r.1)
  | 0x20 => (readBool bs).map (fun r => Command.Sensor r.1)
  | 0x21 => (readBool bs).map (fun r => Command.Gesture r.1)
  | 0x22 => (readBool bs).map (fun r => Command.Als r.1)
  | 0x30 => (readU8 bs).map (fun r => Command.Color r.1)
  | 0x31 => (readPoint bs).map (fun r => Command.Point r.1)
  | 0x32 => do
    let (f, bs) ← readPoint bs
    let (t, _) ← readPoint bs
    some (Command.Line f t)
  | 0x33 => do
    let (f, bs) ← readPoint bs
    let (t, _) ← readPoint bs
    some (Command.Rect f t)
  | 0x34 => do
    let (f, bs) ← readPoint bs
    let (t, _) ← readPoint bs
    some (Command.RectFull f t)
  | 0x35 => do
    let (center, bs) ← readPoint bs
    let (r, _) ← readU8 bs
    some (Command.Circ center r)
  | 0x36 => do
    let (center, bs) ← readPoint bs
    let (r, _) ← readU8 bs
    some (Command.CircFull center r)
  | 0x37 => do
    let (pos, bs) ← readPoint bs
    let (rotation, bs) ← readU8 bs
    let (font_size, bs) ← readU8 bs
    let (color, bs) ← readU8 bs
    let (string, _) ← read_fixed_size_cstr TEXT_LEN bs
    some (Command.Txt pos rotation font_size color string)
  | 0x38 => do
    let (thickness, bs) ← readU8 bs
    let (reserved, bs) ← readU16le bs
    let (points, _) ← readPointsAll bs
    some (Command.Polyline thickness reserved points)
  | 0x39 => (readHoldFlushAction bs).map (fun r => Command.HoldFlush r.1)
  | 0x3C => do
    let (center, bs) ← readPoint bs
    let (r, bs) ← readU8 bs
    let (angle_start, bs) ← readI16be bs
    let (angle_end, bs) ← readI16be bs
    let (thickness, _) ← readU8 bs
    some (Command.Arc center r angle_start angle_end thickness)
  | 0x41 => do
    let (id2, bs) ← readU8 bs
    let (size, bs) ← readU32be bs
    let (width, bs) ← readU16be bs
    let (format, bs) ← readImgFormat bs
    let (data2, _) ← readN size bs
    some (Command.ImgSave id2 size width format data2)
  | 0x42 => do
    let (id2, bs) ← readU8 bs
    let (coord, _) ← readPoint bs
    some (Command.ImgDisplay id2 coord)
  | 0x44 => do
    let (size, bs) ← readU32be bs
    let (width, bs) ← readU16be bs
    let (coord, bs) ← readPoint bs
    let (format, bs) ← readStreamImgFormat bs
    let (data2, _) ← readN size bs
    some (Command.ImgStream size width coord format data2)
  | 0x46 => (readU8 bs).map (fun r => Command.ImgDelete r.1)
  | 0x47 => some .ImgList
  | 0x50 => some .FontList
  | 0x52 => (readU8 bs).map (fun r => Command.FontSelect r.1)
  | 0x53 => (readU8 bs).map (fun r => Command.FontDelete r.1)
  | 0x60 => do
    let (id2, bs) ← readU8 bs
    let (params, _) ← readLayoutParameters bs
    some (Command.LayoutSave id2 params)
  | 0x61 => (readU8 bs).map (fun r => Command.LayoutDelete r.1)
  | 0x62 => do
    let (id2, bs) ← readU8 bs
    let (text, _) ← read_fixed_size_cstr TEXT_LEN bs
    some (Command.LayoutDisplay id2 text)
  | 0x63 => (readU8 bs).map (fun r => Command.LayoutClear r.1)
  | 0x64 => some .LayoutList
  | 0x65 => do
    let (id2, bs) ← readU8 bs
    let (pos, _) ← readLayoutPosition bs
    some (Command.LayoutPosition id2 pos)
  | 0x66 => do
    let (id2, bs) ← readU8 bs
    let (pos, bs) ← readLayoutPosition bs
    let (text, bs) ← read_fixed_size_cstr TEXT_LEN bs
    some (Command.LayoutDisplayExtended id2 pos text bs)
  | 0x67 => (readU8 bs).map (fun r => Command.LayoutGet r.1)
  | 0x68 => do
    let (id2, bs) ← readU8 bs
    let (pos, _) ← readLayoutPosition bs
    some (Command.LayoutClearExtended id2 pos)
  | 0x69 => do
    let (id2, bs) ← readU8 bs
    let (text, _) ← read_fixed_size_cstr TEXT_LEN bs
    some (Command.LayoutClearAndDisplay id2 text)
  | 0x6A => do
    let (id2, bs) ← readU8 bs
    let (pos, bs) ← readLayoutPosition bs
    let (text, bs) ← read_fixed_size_cstr TEXT_LEN bs
    some (Command.LayoutClearAndDisplayExtended id2 pos text bs)
  | 0x70 => do
    let (id2, bs) ← readU8 bs
    let (value, _) ← readU8 bs
    some (Command.GaugeDisplay id2 value)
  | 0x71 => do
    let (id2, bs) ← readU8 bs
    let (pos, bs) ← readPoint bs
    let (radius, bs) ← readU16be bs
    let (inner, bs) ← readU16be bs
    let (start, bs) ← readU8 bs
    let (endv, bs) ← readU8 bs
    let (clockwise, _) ← readU8 bs
    some (Command.GaugeSave id2 pos radius inner start endv clockwise)
  | 0x72 => (readU8 bs).map (fun r => Command.GaugeDelete r.1)
  | 0x73 => some .GaugeList
  | 0x74 => (readU8 bs).map (fun r => Command.GaugeGet r.1)
  | 0x80 => some .PageSave
  | 0x81 => (readU8 bs).map (fun r => Command.PageGet r.1)
  | 0x82 => (readU8 bs).map (fun r => Command.PageDelete r.1)
  | 0x83 => (readU8 bs).map (fun r => Command.PageDisplay r.1)
  | 0x84 => (readU8 bs).map (fun r => Command.PageClear r.1)
  | 0x85 => some .PageList
  | 0x86 => (readU8 bs).map (fun r => Command.PageClearAndDisplay r.1)
  | 0x95 => do
    let (id2, bs) ← readU8 bs
    let (total_size, bs) ← readU32be bs
    let (img_size, bs) ← readU32be bs
    let (width, bs) ← readU16be bs
    let (fmt, bs) ← readU8 bs
    let (img_compressed_size, _) ← readU32be bs
    some (Command.AnimSave id2 total_size img_size width fmt img_compressed_size)
  | 0x96 => (readU8 bs).map (fun r => Command.AnimDelete r.1)
  | 0x97 => do
    let (handler_id, bs) ← readU8 bs
    let (id2, bs) ← readU8 bs
    let (delay, bs) ← readU16be bs
    let (repeats, bs) ← readU8 bs
    let (pos, _) ← readPoint bs
    some (Command.AnimDisplay handler_id id2 delay repeats pos)
  | 0x98 => (readU8 bs).map (fun r => Command.AnimClear r.1)
  | 0x99 => some .AnimList
  | 0xA5 => some .PixelCount
  | 0xD0 => do
    let (name, bs) ← read_fixed_size_cstr NAME_LEN bs
    let (version, bs) ← readU32be bs
    let (password, _) ← readU32be bs
    some (Command.CfgWrite name version password)
  | 0xD1 => (read_fixed_size_cstr NAME_LEN bs).map (fun r => Command.CfgRead r.1)
  | 0xD2 => (read_fixed_size_cstr NAME_LEN bs).map (fun r => Command.CfgSet r.1)
  | 0xD3 => some .CfgList
  | 0xD4 => do
    let (old, bs) ← read_fixed_size_cstr NAME_LEN bs
    let (new, bs) ← read_fixed_size_cstr NAME_LEN bs
    let (password, _) ← readU32be bs
    some (Command.CfgRename old new password)
  | 0xD5 => (read_fixed_size_cstr NAME_LEN bs).map (fun r => Command.CfgDelete r.1)
  | 0xD6 => some .CfgDeleteLessUsed
  | 0xD7 => some .CfgFreeSpace
  | 0xD8 => some .CfgGetNb
  | 0xE0 => (readN 4 bs).map (fun r => Command.Shutdown r.1)
  | 0xE1 => (readN 4 bs).map (fun r => Command.Reset r.1)
  | 0xE3 => (readDeviceInfo bs).map (fun r => Command.Info r.1)
  | _ => none

-- ---------------------------------------------------------------------------
-- Chunker (`Command::as_bytes_chunks`, src/commands.rs lines 887-944)
-- ---------------------------------------------------------------------------

/-- Header length and row byte alignment selected by the `match self`
block of `as_bytes_chunks`: image commands get their fixed header and a
row-width alignment, everything else gets no header and alignment 1. -/
def Command.chunkParams : Command → Nat × Nat
  | .ImgSave _ _ width format _ => (8, format.nb_of_bytes width)
  | .ImgStream _ width _ format _ => (11, format.nb_of_bytes width)
  | _ => (0, 1)

/-- Model of `Command::as_bytes_chunks`.  The first chunk is the image
header when `header_len > 0` (the serialized header always covers it, so
`data[index..header_len]` cannot slice out of bounds); the remaining data
is split by the `while` loop in groups of
`chunk_size / byte_align * byte_align` bytes.  Two non-`ok` outcomes are
explicit: `byte_align = 0` makes `chunk_size / byte_align` a division by
zero (a Rust panic), and a zero group size with data remaining makes the
loop spin forever (`diverged`, per `chunkLoopFuel_zero`). -/
def Command.as_bytes_chunks (cmd : Command) (chunk_size : Nat) :
    RunResult (Nat × List Bytes) :=
  let data := cmd.data_bytes
  let header_len := cmd.chunkParams.1
  let byte_align := cmd.chunkParams.2
  if byte_align = 0 then .panicked
  else
    let first : List Bytes := if header_len > 0 then [data.take header_len] else []
    let rest := data.drop header_len
    let chunk := chunk_size / byte_align * byte_align
    match chunkLoop chunk rest with
    | some cs => .ok (cmd.id, first ++ cs)
    | none => .diverged

-- ---------------------------------------------------------------------------
-- Command packets and the client (src/protocol.rs)
-- ---------------------------------------------------------------------------

/-- A decoded `CommandPacket`. -/
structure CommandPacketM where
  cmd_id : Nat
  long : Nat
  query_id_size : Nat
  length : Nat
  query_id : Option Bytes
  data : Command

/-- Model of `CommandPacket::from_bytes` (src/protocol.rs lines 176-192):
raw decode, then `From<RawPacket>` which runs `Command::from_data` under
`.expect("Invalid command bytestream")` — a codec failure is a panic, not
a returned error. -/
def CommandPacketM.from_bytes (bytes : Bytes) : PResult CommandPacketM :=
  match RawPacketM.from_bytes bytes with
  | .ok raw =>
    match Command.from_data raw.cmd_id raw.data with
    | some c => .ok { cmd_id := raw.cmd_id, long := raw.long,
                      query_id_size := raw.query_id_size, length := raw.length,
                      query_id := raw.query_id, data := c }
    | none => .panicked
  | .err e => .err e
  | .panicked => .panicked

/-- The pieces of a received `ResponsePacket` that
`send_command_expect_response` inspects: the echoed query id and the
decoded response value (opaque here, the client returns it unchanged). -/
structure ResponsePacketView (α : Type) where
  query_id : Option Bytes
  data : α

/-- Model of `ActiveLookClient::send_command_expect_response`
(src/protocol.rs lines 422-456) as a function of the counter value before
the call and of the first successfully decoded response packet.  Returns
the frame written to the wire and the call's result.  The source frames
the command with the current counter (`query_id0`), increments the
counter, and then compares the echoed id — which must be present and
exactly 4 bytes — against the incremented counter. -/
def send_command_expect_response {α : Type} (query_id0 : Nat) (cmd : Command)
    (resp : ResponsePacketView α) : Bytes × Except ProtocolError α :=
  let packet := PacketM.new_with_query_id cmd.id cmd.data_bytes (u32be query_id0)
  let sent := packet.to_bytes
  let query_id1 := (query_id0 + 1) % 2 ^ 32
  (sent,
    match resp.query_id with
    | some id =>
      if id.length ≠ 4 then .error .IncorrectQueryId
      else if beToNat id = query_id1 then .ok resp.data
      else .error .IncorrectQueryId
    | none => .error .IncorrectQueryId)

-- ---------------------------------------------------------------------------
-- Helper lemmas
-- ---------------------------------------------------------------------------

/-- With `chunk = 0` and nonempty data the source loop never terminates:
every fuel bound is exhausted. -/
theorem chunkLoopFuel_zero (data : Bytes) (hd : data ≠ []) :
    ∀ fuel, chunkLoopFuel 0 fuel data = none := by
  intro fuel
  induction fuel with
  | zero => cases data with
    | nil => exact absurd rfl hd
    | cons b rest => rfl
  | succ n ih =>
    cases data with
    | nil => exact absurd rfl hd
    | cons b rest =>
      simp only [chunkLoopFuel, List.drop_zero] at ih ⊢
      rw [ih]
      rfl

/-- Running the loop on an empty remainder yields no chunks, whatever the
fuel. -/
theorem chunkLoopFuel_nil (chunk fuel : Nat) : chunkLoopFuel chunk fuel [] = some [] := by
  cases fuel <;> rfl

/-- With a positive chunk, any fuel of at least `data.length` computes the
same successful result: the loop splits `data` into pieces of `chunk`
bytes (the final piece possibly shorter), and concatenation restores
`data`. -/
theorem chunkLoopFuel_enough (chunk : Nat) (hc : 0 < chunk) :
    ∀ fuel data, data.length ≤ fuel →
      ∃ cs, chunkLoopFuel chunk fuel data = some cs ∧
        cs.flatten = data ∧
        (∀ g ∈ cs.dropLast, g.length = chunk) ∧
        (∀ g ∈ cs, g.length ≤ chunk) := by
  intro fuel
  induction fuel with
  | zero =>
    intro data hlen
    have hdata : data = [] := List.length_eq_zero.mp (Nat.le_zero.mp hlen)
    subst hdata
    exact ⟨[], rfl, rfl, by simp, by simp⟩
  | succ n ih =>
    intro data hlen
    cases data with
    | nil => exact ⟨[], chunkLoopFuel_nil chunk (n + 1), rfl, by simp, by simp⟩
    | cons b rest =>
      rw [List.length_cons] at hlen
      have hdrop : ((b :: rest).drop chunk).length ≤ n := by
        rw [List.length_drop, List.length_cons]
        omega
      obtain ⟨cs, hcs, hflat, hmid, hall⟩ := ih _ hdrop
      have hcons : chunkLoopFuel chunk (n + 1) (b :: rest)
          = some ((b :: rest).take chunk :: cs) := by
        simp only [chunkLoopFuel, hcs, Option.map_some']
      refine ⟨(b :: rest).take chunk :: cs, hcons, ?_, ?_, ?_⟩
      · simp only [List.flatten_cons, hflat, List.take_append_drop]
      · intro g hg
        cases hcse : cs with
        | nil =>
          subst hcse
          simp at hg
        | cons c cs2 =>
          subst hcse
          rw [List.dropLast_cons₂] at hg
          rcases List.mem_cons.mp hg with h1 | h2
          · subst h1
            have hrest : (b :: rest).drop chunk ≠ [] := by
              intro hnil
              rw [hnil, chunkLoopFuel_nil] at hcs
              exact List.cons_ne_nil c cs2 (Option.some.inj hcs).symm
            have hlt : chunk < (b :: rest).length := by
              by_contra hge
              push_neg at hge
              exact hrest (List.drop_eq_nil_of_le hge)
            rw [List.length_take]
            exact Nat.min_eq_left (Nat.le_of_lt hlt)
          · exact hmid g h2
      · intro g hg
        rcases List.mem_cons.mp hg with h1 | h2
        · subst h1
          rw [List.length_take]
          exact Nat.min_le_left _ _
        · exact hall g h2

/-- The chunk loop with a positive chunk and its default fuel always
succeeds and concatenates back to its input. -/
theorem chunkLoop_ok (chunk : Nat) (hc : 0 < chunk) (data : Bytes) :
    ∃ cs, chunkLoop chunk data = some cs ∧
      cs.flatten = data ∧
      (∀ g ∈ cs.dropLast, g.length = chunk) ∧
      (∀ g ∈ cs, g.length ≤ chunk) :=
  chunkLoopFuel_enough chunk hc data.length data le_rfl

-- ---------------------------------------------------------------------------
-- Claim theorems
-- ---------------------------------------------------------------------------

/-- C1.  The claim says `send_command_expect_response` accepts exactly
the response whose 4-byte big-endian correlation id equals the counter
value used to build the request frame.  The code increments the counter
between framing and comparing: with counter 0 the request goes out with
correlation id bytes [0,0,0,0], yet the response echoing [0,0,0,0] is
rejected with `IncorrectQueryId` while a response carrying [0,0,0,1] is
accepted. -/
theorem client_correlation_check_off_by_one :
    send_command_expect_response 0 .Battery
        (ResponsePacketView.mk (some [0, 0, 0, 0]) (7 : Nat))
      = ([0xFF, 0x05, 0x04, 9, 0, 0, 0, 0, 0xAA], .error .IncorrectQueryId)
    ∧ (send_command_expect_response 0 .Battery
        (ResponsePacketView.mk (some [0, 0, 0, 1]) (7 : Nat))).2 = .ok 7 := by
  constructor
  · rfl
  · rfl

/-- C2.  The claim says a well-formed extended-length frame decodes
successfully with a 2-byte big-endian length field.  The input below is
such a frame (its declared 2-byte length 0x0006 equals its 6-byte size),
yet `RawPacket::from_bytes` panics: the code slices a single byte
(`bytes[index..index + 1]`) and its `try_into` to the 2-byte array
`i16::from_be_bytes` needs always fails, so the `unwrap` panics. -/
theorem long_frame_decode_panics :
    beToNat [0x00, 0x06] = 6
    ∧ ([0xFF, 0x01, 0x10, 0x00, 0x06, 0xAA] : Bytes).length = 6
    ∧ RawPacketM.from_bytes [0xFF, 0x01, 0x10, 0x00, 0x06, 0xAA] = .panicked := by
  refine ⟨rfl, rfl, rfl⟩

/-- C10.  The claim says the raw decode is total and returns a declared
protocol error even when the format byte announces more correlation-id
bytes than remain in the buffer.  On this length-consistent 5-byte buffer
whose format byte declares a 15-byte correlation id, the code panics: the
slice `bytes[4..19]` is out of bounds. -/
theorem raw_decode_panics_on_query_id_overrun :
    ([0xFF, 0x01, 0x0F, 0x05, 0xAA] : Bytes).length = 5
    ∧ RawPacketM.from_bytes [0xFF, 0x01, 0x0F, 0x05, 0xAA] = .panicked := by
  refine ⟨rfl, rfl⟩

/-- C4.  The claim says a structurally valid frame whose tag is absent
from the catalog (or whose payload is too short) yields a codec error
returned to the caller, without panicking.  The frame below passes all
structural checks and its tag 0x04 is not in the command catalog, so
`Command::from_data` fails — and `From<RawPacket> for CommandPacket`
unwraps that failure with `.expect(...)`, a panic instead of a returned
error. -/
theorem command_packet_decode_panics_on_codec_error :
    RawPacketM.from_bytes [0xFF, 0x04, 0x00, 0x05, 0xAA]
      = .ok { cmd_id := 4, long := 0, query_id_size := 0, length := 5,
              query_id := none, data := none }
    ∧ Command.from_data 0x04 none = none
    ∧ CommandPacketM.from_bytes [0xFF, 0x04, 0x00, 0x05, 0xAA] = .panicked := by
  refine ⟨rfl, rfl, rfl⟩

/-- C3 counterexample.  The claim predicts that with a chunk size (3)
smaller than one row's byte width (4 for a 7-pixel-wide 4bpp image) the
chunker degrades to the equal-split rule, here producing the intact
header followed by the row bytes [9, 9].  Instead the effective group
size is 3 / 4 * 4 = 0 and the source's while loop never terminates; the
model returns `diverged` for every amount of fuel. -/
theorem small_chunk_size_diverges :
    (Command.ImgSave 0 2 7 .Img4bpp [9, 9]).as_bytes_chunks 3 = .diverged
    ∧ RunResult.diverged
        ≠ RunResult.ok (0x41, [[0, 0, 0, 0, 2, 0, 7, 0], [9, 9]]) := by
  refine ⟨rfl, by intro h; cases h⟩

/-- C8 counterexample.  The claim says the image header is emitted as an
always-intact first chunk regardless of chunk size.  For an image-stream
command with row width 2 (9 pixels, 1bpp) and chunk size 1 the source
loop never terminates, so no chunk list is ever produced. -/
theorem imgstream_small_chunk_diverges :
    (Command.ImgStream 1 9 (Point.mk 0 0) .Img1bpp [5]).as_bytes_chunks 1 = .diverged
    ∧ RunResult.diverged
        ≠ RunResult.ok (0x44, [[0, 0, 0, 1, 0, 9, 0, 0, 0, 0, 1], [5]]) := by
  refine ⟨rfl, by intro h; cases h⟩

/-- C6 counterexample.  The claim says any buffer whose declared length
differs from its actual byte count is rejected with the length-mismatch
error.  This 5-byte buffer carries the extended-length bit; its 2-byte
big-endian length field would read 0x00AA = 170 ≠ 5, but the code panics
on the one-byte slice before any length comparison happens. -/
theorem long_frame_length_check_unreachable :
    beToNat [0x00, 0xAA] ≠ ([0xFF, 0x01, 0x10, 0x00, 0xAA] : Bytes).length
    ∧ RawPacketM.from_bytes [0xFF, 0x01, 0x10, 0x00, 0xAA] = .panicked
    ∧ PResult.panicked ≠ (PResult.err .InvalidPacketLength : PResult RawPacketM) := by
  refine ⟨by decide, rfl, by intro h; cases h⟩

/-- C7 counterexample.  The claim's round-trip law quantifies over every
source string shorter than capacity - 1, but a string containing an
interior NUL byte (here [65, 0, 66] with capacity `NAME_LEN` = 12) does
not survive: decode stops at the first NUL and returns [65]. -/
theorem cstr_nul_breaks_round_trip :
    ([65, 0, 66] : Bytes).length < NAME_LEN - 1
    ∧ read_fixed_size_cstr NAME_LEN (write_fixed_size_cstr [65, 0, 66] NAME_LEN)
        = some ([65], [66, 0])
    ∧ ([65] : Bytes) ≠ [65, 0, 66] := by
  refine ⟨by decide, rfl, by decide⟩

/-- C6 (amended).  `RawPacket::from_bytes` rejects buffers shorter than 5
bytes with the too-small error, rejects 5-byte-or-longer buffers with bad
delimiters with the framing error, and — for buffers whose format byte
has the extended-length bit clear — rejects a declared length different
from the actual byte count with the length-mismatch error; in particular
[0xFF, 0xAA] is too small and [0xFF, 0x01, 0x00, 0x42, 0xAA] is a length
mismatch.  (Buffers with the extended-length bit set panic before the
length comparison; see the counterexample.) -/
theorem framer_rejects_malformed :
    (∀ b : Bytes, b.length < 5 → RawPacketM.from_bytes b = .err .PacketLengthTooSmall)
    ∧ (∀ b : Bytes, 5 ≤ b.length →
        ¬ (b.head? = some 0xFF ∧ b.getLast? = some 0xAA) →
        RawPacketM.from_bytes b = .err .FrameError)
    ∧ (∀ b : Bytes, 5 ≤ b.length → b.head? = some 0xFF → b.getLast? = some 0xAA →
        b.getD 2 0 / 16 % 2 ≠ 1 → b.getD 3 0 ≠ b.length →
        RawPacketM.from_bytes b = .err .InvalidPacketLength)
    ∧ RawPacketM.from_bytes [0xFF, 0xAA] = .err .PacketLengthTooSmall
    ∧ RawPacketM.from_bytes [0xFF, 0x01, 0x00, 0x42, 0xAA] = .err .InvalidPacketLength := by
  refine ⟨?_, ?_, ?_, rfl, rfl⟩
  · intro b hb
    simp only [RawPacketM.from_bytes, PACKET_MIN_SIZE]
    rw [if_pos hb]
  · intro b hb hdelim
    simp only [RawPacketM.from_bytes, PACKET_MIN_SIZE, PACKET_START, PACKET_END]
    rw [if_neg (by omega), if_pos hdelim]
  · intro b hb h1 h2 h3 h4
    simp only [RawPacketM.from_bytes, PACKET_MIN_SIZE, PACKET_START, PACKET_END]
    rw [if_neg (by omega), if_neg (fun hn => hn ⟨h1, h2⟩), if_neg h3,
      if_pos (Ne.symm h4)]

/-- C6 witness: a well-sized buffer with bad delimiters is a framing
error. -/
theorem framer_rejects_malformed_witness :
    RawPacketM.from_bytes [0, 1, 2, 3, 4] = .err .FrameError :=
  framer_rejects_malformed.2.1 [0, 1, 2, 3, 4] (by decide) (by decide)

/-- C3 (amended).  Concatenating the chunker's output reproduces the
serialized payload exactly — for image commands under the row-aligned
rule and for all other commands under the default rule — whenever the
row byte width is positive and at most the chunk size (for non-image
commands the width is 1, so any positive chunk size qualifies).  When the
chunk size is smaller than one row the source loops forever instead of
degrading (see the counterexample). -/
theorem chunker_lossless_when_row_fits (cmd : Command) (chunk_size : Nat)
    (hba : 0 < cmd.chunkParams.2) (hfit : cmd.chunkParams.2 ≤ chunk_size) :
    ∃ cs, cmd.as_bytes_chunks chunk_size = .ok (cmd.id, cs)
      ∧ cs.flatten = cmd.data_bytes := by
  have hchunk : 0 < chunk_size / cmd.chunkParams.2 * cmd.chunkParams.2 :=
    Nat.mul_pos (Nat.div_pos hfit hba) hba
  obtain ⟨cs, hcs, hflat, -, -⟩ :=
    chunkLoop_ok _ hchunk (cmd.data_bytes.drop cmd.chunkParams.1)
  refine ⟨(if cmd.chunkParams.1 > 0
            then [cmd.data_bytes.take cmd.chunkParams.1] else []) ++ cs, ?_, ?_⟩
  · simp only [Command.as_bytes_chunks]
    rw [if_neg (Nat.pos_iff_ne_zero.mp hba)]
    rw [hcs]
  · by_cases hh : cmd.chunkParams.1 > 0
    · rw [if_pos hh]
      rw [List.flatten_append]
      simp only [List.flatten_cons, List.flatten_nil, List.append_nil]
      rw [hflat]
      exact List.take_append_drop _ _
    · rw [if_neg hh]
      have h0 : cmd.chunkParams.1 = 0 := by omega
      rw [List.nil_append, hflat, h0, List.drop_zero]

/-- C3 witness: a one-byte command payload split with chunk size 1. -/
theorem chunker_lossless_when_row_fits_witness :
    ∃ cs, (Command.PowerDisplay 1).as_bytes_chunks 1 = .ok (0x00, cs)
      ∧ cs.flatten = [1] :=
  chunker_lossless_when_row_fits (.PowerDisplay 1) 1 (by decide) (by decide)

/-- C8 (amended).  For every image-save command whose row byte width is
positive and at most the chunk size, the chunker emits the 8 serialized
header bytes (id, size, width, format) as an intact first chunk, followed
by pixel-data groups whose size is the largest multiple of the row width
that fits the chunk size (the final group possibly shorter), and the
groups concatenate back to the pixel data; in particular the 10-byte
1bpp-width-8 image chunked at 255 gives exactly the 8-byte header chunk
and one 10-byte data chunk.  (Chunk sizes below the row width make the
source loop forever; see the counterexample.) -/
theorem imgsave_chunking :
    (∀ (id size width : Nat) (format : ImgFormat) (data : Bytes) (chunk_size : Nat),
      0 < format.nb_of_bytes width → format.nb_of_bytes width ≤ chunk_size →
      ∃ groups,
        (Command.ImgSave id size width format data).as_bytes_chunks chunk_size
          = .ok (0x41, ([id] ++ u32beBytes size ++ u16beBytes width
              ++ [format.toNat]) :: groups)
        ∧ groups.flatten = data
        ∧ (∀ g ∈ groups.dropLast,
            g.length = chunk_size / format.nb_of_bytes width * format.nb_of_bytes width)
        ∧ (∀ g ∈ groups,
            g.length ≤ chunk_size / format.nb_of_bytes width * format.nb_of_bytes width))
    ∧ (Command.ImgSave 0 10 8 .Img1bpp (List.replicate 10 0)).as_bytes_chunks 255
        = .ok (0x41, [[0, 0, 0, 0, 10, 0, 8, 1], List.replicate 10 0]) := by
  constructor
  · intro id size width format data chunk_size hba hfit
    have hchunk : 0 < chunk_size / format.nb_of_bytes width * format.nb_of_bytes width :=
      Nat.mul_pos (Nat.div_pos hfit hba) hba
    have hhdr : ([id] ++ u32beBytes size ++ u16beBytes width
        ++ [format.toNat]).length = 8 := by
      simp [u32beBytes, u32be, u16beBytes]
    have hdb : (Command.ImgSave id size width format data).data_bytes
        = ([id] ++ u32beBytes size ++ u16beBytes width ++ [format.toNat]) ++ data := by
      simp [Command.data_bytes]
    obtain ⟨cs, hcs, hflat, hmid, hall⟩ := chunkLoop_ok _ hchunk data
    refine ⟨cs, ?_, hflat, hmid, hall⟩
    simp only [Command.as_bytes_chunks, Command.chunkParams]
    rw [if_neg (Nat.pos_iff_ne_zero.mp hba)]
    have htake : (Command.ImgSave id size width format data).data_bytes.take 8
        = [id] ++ u32beBytes size ++ u16beBytes width ++ [format.toNat] := by
      rw [hdb]
      exact List.take_left' hhdr
    have hdrop : (Command.ImgSave id size width format data).data_bytes.drop 8
        = data := by
      rw [hdb]
      exact List.drop_left' hhdr
    rw [hdrop, hcs, htake]
    rfl
  · rfl

/-- C8 witness: an 8bpp 4-pixel-wide image with 4 data bytes chunked at
the row width. -/
theorem imgsave_chunking_witness :
    ∃ groups, (Command.ImgSave 2 4 4 .Img8bpp [1, 2, 3, 4]).as_bytes_chunks 4
        = .ok (0x41, ([2] ++ u32beBytes 4 ++ u16beBytes 4
            ++ [ImgFormat.toNat .Img8bpp]) :: groups)
      ∧ groups.flatten = [1, 2, 3, 4]
      ∧ (∀ g ∈ groups.dropLast, g.length = 4 / 4 * 4)
      ∧ (∀ g ∈ groups, g.length ≤ 4 / 4 * 4) :=
  imgsave_chunking.1 2 4 4 .Img8bpp [1, 2, 3, 4] 4 (by decide) (by decide)

set_option maxRecDepth 40000 in
/-- C5 counterexample.  An image-save command with a 250-byte serialized
payload framed with a 4-byte correlation id: the final length 259 exceeds
255, so `to_bytes` emits a two-byte length field and the frame is 260
bytes — but the packet's declared length stays 259 (one byte short) and
the extended-length bit, decided before the query id was added, stays
clear although the total exceeds 255. -/
theorem straddle_frame_mismatch :
    (PacketM.new_with_query_id
        (Command.ImgSave 0 242 1 .Img1bpp (List.replicate 242 0)).id
        (Command.ImgSave 0 242 1 .Img1bpp (List.replicate 242 0)).data_bytes
        [0, 0, 0, 0]).to_bytes.length = 260
    ∧ (PacketM.new_with_query_id
        (Command.ImgSave 0 242 1 .Img1bpp (List.replicate 242 0)).id
        (Command.ImgSave 0 242 1 .Img1bpp (List.replicate 242 0)).data_bytes
        [0, 0, 0, 0]).length = 259
    ∧ (PacketM.new_with_query_id
        (Command.ImgSave 0 242 1 .Img1bpp (List.replicate 242 0)).id
        (Command.ImgSave 0 242 1 .Img1bpp (List.replicate 242 0)).data_bytes
        [0, 0, 0, 0]).long = 0 := by
  refine ⟨by decide, by decide, by decide⟩

set_option maxRecDepth 40000 in
/-- C9 counterexample.  Encoding a 250-byte payload with a 4-byte
correlation id lands in the same straddle region: the emitted frame
carries a two-byte length field that the decoder (seeing the clear
extended-length bit) reads as the single byte 0x01, so decoding the
encoder's own output fails with the length-mismatch error instead of
returning the original fields. -/
theorem straddle_round_trip_fails :
    RawPacketM.from_bytes ((PacketM.new_with_query_id 0x41
        (List.replicate 250 1) [0, 0, 0, 1]).to_bytes)
      = .err .InvalidPacketLength := by
  decide

/-- C7 (amended).  The fixed-capacity C-string codec: encode truncates to
the capacity and appends exactly one NUL byte iff the truncated text is
strictly shorter than the capacity (no zero-fill); decode collects at
most `capacity` bytes, none of them NUL, stopping at the first NUL; and
decoding the encoding recovers any source text shorter than
`capacity - 1` that contains no NUL byte (an interior NUL breaks the
round trip — see the counterexample). -/
theorem cstr_codec :
    (∀ (s : Bytes) (cap : Nat),
      write_fixed_size_cstr s cap
        = s.take cap ++ (if s.length < cap then [0] else []))
    ∧ (∀ (cap : Nat) (input s r : Bytes),
        read_fixed_size_cstr cap input = some (s, r) → s.length ≤ cap ∧ 0 ∉ s)
    ∧ (∀ (s : Bytes) (cap : Nat) (extra : Bytes), 0 ∉ s → s.length < cap - 1 →
        read_fixed_size_cstr cap (write_fixed_size_cstr s cap ++ extra)
          = some (s, extra)) := by
  refine ⟨?_, ?_, ?_⟩
  · intro s cap
    simp only [write_fixed_size_cstr]
    congr 1
    by_cases h : s.length < cap
    · rw [if_pos h, if_pos (by rw [List.length_take]; omega)]
    · rw [if_neg h, if_neg (by rw [List.length_take]; omega)]
  · intro cap
    induction cap with
    | zero =>
      intro input s r h
      simp only [read_fixed_size_cstr, Option.some.injEq, Prod.mk.injEq] at h
      obtain ⟨h1, h2⟩ := h
      subst h1
      exact ⟨Nat.le_refl 0, by simp⟩
    | succ n ih =>
      intro input s r h
      cases input with
      | nil => simp [read_fixed_size_cstr] at h
      | cons b rest =>
        simp only [read_fixed_size_cstr] at h
        by_cases hb : b = 0
        · rw [if_pos hb] at h
          simp only [Option.some.injEq, Prod.mk.injEq] at h
          obtain ⟨h1, h2⟩ := h
          subst h1
          exact ⟨by simp, by simp⟩
        · rw [if_neg hb] at h
          cases hr : read_fixed_size_cstr n rest with
          | none => rw [hr] at h; simp at h
          | some pr =>
            rw [hr] at h
            simp only [Option.map_some', Option.some.injEq, Prod.mk.injEq] at h
            obtain ⟨h1, h2⟩ := h
            obtain ⟨hlen, hmem⟩ := ih rest pr.1 pr.2 (by rw [hr])
            subst h1
            refine ⟨by simpa using hlen, ?_⟩
            intro hm
            rcases List.mem_cons.mp hm with hm1 | hm2
            · exact hb hm1.symm
            · exact hmem hm2
  · intro s
    induction s with
    | nil =>
      intro cap extra hmem hlen
      obtain ⟨m, rfl⟩ : ∃ m, cap = m + 1 := ⟨cap - 1, by omega⟩
      simp only [write_fixed_size_cstr, List.take_nil, List.length_nil,
        List.nil_append]
      rw [if_pos (by omega)]
      simp [read_fixed_size_cstr]
    | cons x s2 ih =>
      intro cap extra hmem hlen
      have hx : x ≠ 0 := by
        intro h
        apply hmem
        rw [h]
        exact List.mem_cons_self 0 s2
      have hmem2 : 0 ∉ s2 := fun hm => hmem (List.mem_cons_of_mem x hm)
      rw [List.length_cons] at hlen
      obtain ⟨m, rfl⟩ : ∃ m, cap = m + 1 := ⟨cap - 1, by omega⟩
      have htake : (x :: s2).take (m + 1) = x :: s2 :=
        List.take_of_length_le (by simp; omega)
      have hw : write_fixed_size_cstr (x :: s2) (m + 1) = (x :: s2) ++ [0] := by
        simp only [write_fixed_size_cstr]
        rw [htake, if_pos (by simp; omega)]
      have hw2 : write_fixed_size_cstr s2 m = s2 ++ [0] := by
        simp only [write_fixed_size_cstr]
        rw [List.take_of_length_le (by omega), if_pos (by omega)]
      rw [hw]
      have hsplit : ((x :: s2) ++ [0]) ++ extra
          = x :: (write_fixed_size_cstr s2 m ++ extra) := by
        rw [hw2]
        simp
      rw [hsplit]
      simp only [read_fixed_size_cstr]
      rw [if_neg hx, ih m extra hmem2 (by omega)]
      rfl

/-- C7 witness: a two-byte NUL-free name round-trips at capacity 12. -/
theorem cstr_codec_witness :
    read_fixed_size_cstr 12 (write_fixed_size_cstr [65, 66] 12 ++ [])
      = some ([65, 66], []) :=
  cstr_codec.2.2 [65, 66] 12 [] (by decide) (by decide)

/-- Truncating cast below the wrap region. -/
theorem i16ofNat_small (n : Nat) (h : n < 32768) : i16ofNat n = (n : Int) := by
  simp only [i16ofNat]
  rw [Nat.mod_eq_of_lt (by omega)]
  rw [if_pos h]

/-- Wrapping is the identity on `i16`-range values. -/
theorem wrap16_small (z : Int) (h0 : 0 ≤ z) (h : z < 32768) : wrap16 z = z := by
  simp only [wrap16]
  rw [Int.emod_eq_of_lt h0 (by omega)]
  rw [if_pos h]

/-- `Packet::new` in the short-length region. -/
theorem packetM_new_short (id : Nat) (data : Bytes) (h : data.length + 5 ≤ 255) :
    PacketM.new id data
      = { cmd_id := id, long := 0, query_id_size := 0,
          length := (data.length : Int) + 5, query_id := none, data := data } := by
  simp only [PacketM.new]
  rw [i16ofNat_small _ (by omega)]
  rw [wrap16_small _ (by omega) (by omega)]
  rw [if_neg (by omega)]

/-- `Packet::new` in the extended-length region (within `i16` range). -/
theorem packetM_new_long (id : Nat) (data : Bytes) (h : 255 < data.length + 5)
    (h2 : data.length + 6 ≤ 32767) :
    PacketM.new id data
      = { cmd_id := id, long := 1, query_id_size := 0,
          length := (data.length : Int) + 6, query_id := none, data := data } := by
  simp only [PacketM.new]
  rw [i16ofNat_small _ (by omega)]
  rw [wrap16_small ((data.length : Int) + 5) (by omega) (by omega)]
  rw [if_pos (by omega)]
  rw [wrap16_small ((data.length : Int) + 5 + 1) (by omega) (by omega)]
  have e : (data.length : Int) + 5 + 1 = (data.length : Int) + 6 := by ring
  rw [e]

/-- `Packet::new_with_query_id` when the final length stays below 256. -/
theorem packetM_nwq_short (id : Nat) (data qid : Bytes)
    (h : data.length + 5 + qid.length ≤ 255) :
    PacketM.new_with_query_id id data qid
      = { cmd_id := id, long := 0, query_id_size := qid.length,
          length := (data.length : Int) + 5 + (qid.length : Int),
          query_id := some qid, data := data } := by
  simp only [PacketM.new_with_query_id]
  rw [packetM_new_short id data (by omega)]
  simp only []
  rw [wrap16_small _ (by positivity) (by omega)]

/-- `Packet::new_with_query_id` when the payload alone forces the
extended-length bit (within `i16` range). -/
theorem packetM_nwq_long (id : Nat) (data qid : Bytes)
    (h : 255 < data.length + 5) (h2 : data.length + 6 + qid.length ≤ 32767) :
    PacketM.new_with_query_id id data qid
      = { cmd_id := id, long := 1, query_id_size := qid.length,
          length := (data.length : Int) + 6 + (qid.length : Int),
          query_id := some qid, data := data } := by
  simp only [PacketM.new_with_query_id]
  rw [packetM_new_long id data h (by omega)]
  simp only []
  rw [wrap16_small _ (by positivity) (by omega)]

/-- C5 (amended).  For every tag, payload and correlation id of at most
15 bytes (totals within `i16` range), as long as the correlation id does
not carry the total across the 255 boundary — i.e. either the whole
frame fits 255 bytes or the payload alone already forces the extended
length — the encoder's declared length equals the emitted frame's total
byte count (2 delimiters + tag + format byte + 1-or-2 length bytes +
correlation id + payload) and the extended-length bit is set exactly
when that total exceeds 255.  In the straddle region the invariant
breaks — see the counterexample. -/
theorem frame_length_invariant (id : Nat) (data qid : Bytes)
    (hq : qid.length ≤ 15)
    (hsz : data.length + 6 + qid.length ≤ 32767)
    (hside : data.length + 5 + qid.length ≤ 255 ∨ 255 < data.length + 5) :
    (PacketM.new_with_query_id id data qid).length
        = ((PacketM.new_with_query_id id data qid).to_bytes.length : Int)
    ∧ ((PacketM.new_with_query_id id data qid).long = 1
        ↔ 255 < (PacketM.new_with_query_id id data qid).to_bytes.length) := by
  rcases hside with hs | hl
  · rw [packetM_nwq_short id data qid hs]
    simp only [PacketM.to_bytes]
    rw [if_neg (by omega)]
    constructor
    · simp only [List.length_append, List.length_cons, List.length_nil,
        Option.getD_some]
      push_cast
      ring
    · simp only [List.length_append, List.length_cons, List.length_nil,
        Option.getD_some]
      constructor
      · intro h01
        exact absurd h01 (by omega)
      · intro hgt
        exact absurd hgt (by omega)
  · rw [packetM_nwq_long id data qid hl (by omega)]
    simp only [PacketM.to_bytes]
    rw [if_pos (by omega)]
    constructor
    · simp only [i16beBytes, List.length_append, List.length_cons,
        List.length_nil, Option.getD_some]
      push_cast
      ring
    · simp only [i16beBytes, List.length_append, List.length_cons,
        List.length_nil, Option.getD_some]
      constructor
      · intro _
        omega
      · intro _
        trivial

/-- C5 witness: a one-byte payload with a 4-byte correlation id. -/
theorem frame_length_invariant_witness :
    (PacketM.new_with_query_id 0 [1] [0, 0, 0, 0]).length
        = ((PacketM.new_with_query_id 0 [1] [0, 0, 0, 0]).to_bytes.length : Int)
    ∧ ((PacketM.new_with_query_id 0 [1] [0, 0, 0, 0]).long = 1
        ↔ 255 < (PacketM.new_with_query_id 0 [1] [0, 0, 0, 0]).to_bytes.length) :=
  frame_length_invariant 0 [1] [0, 0, 0, 0] (by decide) (by decide)
    (Or.inl (by decide))

/-- A list of length four is an explicit four-element list. -/
theorem list_length_four {α : Type} (l : List α) (h : l.length = 4) :
    ∃ a b c d, l = [a, b, c, d] := by
  cases l with
  | nil => simp at h
  | cons a l1 =>
    cases l1 with
    | nil => simp at h
    | cons b l2 =>
      cases l2 with
      | nil => simp at h
      | cons c l3 =>
        cases l3 with
        | nil => simp at h
        | cons d l4 =>
          cases l4 with
          | nil => exact ⟨a, b, c, d, rfl⟩
          | cons e l5 =>
            exfalso
            simp only [List.length_cons] at h
            omega

/-- C9 (amended).  For every tag, payload and 4-byte correlation id,
as long as the full frame fits the one-byte length field
(payload + 9 ≤ 255), decoding the encoder's output returns exactly the
original tag, the emitted format-byte fields (extended-length bit clear,
correlation-id size 4), the emitted length, the same correlation id and
the same payload bytes.  Beyond that bound the encoder's own output
fails to decode — see the counterexample. -/
theorem frame_round_trip (id : Nat) (data qid : Bytes)
    (hqid : qid.length = 4) (hdata : data.length + 9 ≤ 255) :
    RawPacketM.from_bytes ((PacketM.new_with_query_id id data qid).to_bytes)
      = .ok { cmd_id := id, long := 0, query_id_size := 4,
              length := data.length + 9, query_id := some qid,
              data := if data.length = 0 then none else some data } := by
  obtain ⟨a, b, c, d, rfl⟩ := list_length_four qid hqid
  have henc : (PacketM.new_with_query_id id data [a, b, c, d]).to_bytes
      = 0xFF :: id :: 4 :: (data.length + 9)
          :: a :: b :: c :: d :: (data ++ [0xAA]) := by
    have hcap : data.length + 5 + ([a, b, c, d] : Bytes).length ≤ 255 := by
      simp only [List.length_cons, List.length_nil]
      omega
    rw [packetM_nwq_short id data [a, b, c, d] hcap]
    simp only [PacketM.to_bytes, PACKET_START, PACKET_END, Option.getD_some,
      List.length_cons, List.length_nil]
    rw [if_neg (by omega)]
    have ebyte : (((data.length : Int) + 5 + ((0 + 1 + 1 + 1 + 1 : Nat) : Int))
        % 256).toNat = data.length + 9 := by omega
    rw [ebyte]
    simp [List.append_assoc]
  rw [henc]
  have hL : (0xFF :: id :: 4 :: (data.length + 9)
      :: a :: b :: c :: d :: (data ++ [0xAA])).length = data.length + 9 := by
    simp only [List.length_cons, List.length_append, List.length_nil]
  have hform : 0xFF :: id :: 4 :: (data.length + 9)
      :: a :: b :: c :: d :: (data ++ [0xAA])
      = (0xFF :: id :: 4 :: (data.length + 9) :: a :: b :: c :: d :: data)
          ++ [0xAA] := by
    simp
  have hlast : (0xFF :: id :: 4 :: (data.length + 9)
      :: a :: b :: c :: d :: (data ++ [0xAA])).getLast? = some 0xAA := by
    rw [hform]
    exact List.getLast?_concat _
  have hg1 : (0xFF :: id :: 4 :: (data.length + 9)
      :: a :: b :: c :: d :: (data ++ [0xAA])).getD 1 0 = id := rfl
  have hg2 : (0xFF :: id :: 4 :: (data.length + 9)
      :: a :: b :: c :: d :: (data ++ [0xAA])).getD 2 0 = 4 := rfl
  have hg3 : (0xFF :: id :: 4 :: (data.length + 9)
      :: a :: b :: c :: d :: (data ++ [0xAA])).getD 3 0 = data.length + 9 := rfl
  have hd4 : (0xFF :: id :: 4 :: (data.length + 9)
      :: a :: b :: c :: d :: (data ++ [0xAA])).drop 4
      = a :: b :: c :: d :: (data ++ [0xAA]) := rfl
  have hd8 : (0xFF :: id :: 4 :: (data.length + 9)
      :: a :: b :: c :: d :: (data ++ [0xAA])).drop 8 = data ++ [0xAA] := rfl
  simp only [RawPacketM.from_bytes, PACKET_MIN_SIZE, PACKET_START, PACKET_END]
  rw [if_neg (by rw [hL]; omega)]
  rw [if_neg (fun hn => hn ⟨rfl, hlast⟩)]
  rw [hg1, hg2, hg3]
  rw [if_neg (show ¬((4 : Nat) / 16 % 2 = 1) by decide)]
  rw [if_neg (show ¬((0xFF :: id :: 4 :: (data.length + 9)
      :: a :: b :: c :: d :: (data ++ [0xAA])).length ≠ data.length + 9)
    from fun hn => hn hL)]
  rw [if_neg (show ¬((4 : Nat) % 16 ≠ 0 ∧ (0xFF :: id :: 4 :: (data.length + 9)
      :: a :: b :: c :: d :: (data ++ [0xAA])).length < 4 + 4 % 16)
    from fun hcon => absurd hcon.2 (by rw [hL]; omega))]
  rw [if_neg (show ¬(data.length + 9 < 5 + 4 % 16) by omega)]
  simp only [show (4 : Nat) % 16 = 4 from rfl, show (4 : Nat) / 16 % 2 = 0 from rfl]
  rw [if_neg (show ¬((4 : Nat) = 0) by decide)]
  rw [hd4]
  rw [show List.take 4 (a :: b :: c :: d :: (data ++ [0xAA])) = [a, b, c, d] from rfl]
  rw [show (4 + 4 : Nat) = 8 from rfl, hd8]
  have hdl : data.length + 9 - 5 - 4 = data.length := by omega
  rw [hdl]
  have htake : (data ++ [0xAA]).take data.length = data := List.take_left _ _
  rw [htake]

/-- C9 witness: a one-byte payload framed with correlation id
[9, 9, 9, 9] decodes back to its own fields. -/
theorem frame_round_trip_witness :
    RawPacketM.from_bytes ((PacketM.new_with_query_id 5 [1] [9, 9, 9, 9]).to_bytes)
      = .ok { cmd_id := 5, long := 0, query_id_size := 4, length := 10,
              query_id := some [9, 9, 9, 9], data := some [1] } :=
  frame_round_trip 5 [1] [9, 9, 9, 9] (by decide) (by decide)

end ActiveLook
